import Mathlib

/-!
Verification of the Emergent Terminal shared-session server (`src/server.ts`).

This file is a shallow embedding of the "TMUX-LITE" shared-session core of the
server: the output ring buffer (`addToBuffer`, `replayBufferToClient`), the
client registry broadcast (`broadcastToClients`), the pty data/exit handlers
installed by `createSharedPty`, the WebSocket message switch
(`start` / `new` / `input` / `resize`, plus malformed and unknown payloads) and
the `close` handler.  The server's mutable `SHARED_SESSION` record becomes the
`SessionState` structure, and every handler becomes a case of one transition
function `step : SessionState → Event → SessionState × List Effect`, where the
effect list records the messages sent to individual clients and the operations
performed on pty processes (Node's event loop runs each handler atomically, so
each handler is one step).

Pseudo-terminal processes are identified by a generation number drawn from a
counter (`nextPtyGen`); an exit or data event carries the generation of the
process that produced it, mirroring the fact that each `onExit` / `onData`
callback in the source is a closure over one particular `ptyProcess`.
`crypto.randomBytes(8)` session identifiers are modelled by a fresh-identifier
counter (`nextSessionId`): each draw yields an identifier never produced
before, which is the property the random draw is used for.  Spawning can fail
(`pty.spawn` throws); the Boolean `spawnOk` carried by a client-message event
says whether the spawn attempted during that handler succeeds, and a failure
propagates to the handler's `catch`, which only logs — exactly as in the
source.
-/

namespace EmergentTerminal

/-- One attached client connection of the shared session: its identifier and
whether its transport is still open (`readyState === WebSocket.OPEN`). -/
structure Client where
  cid : Nat
  isOpen : Bool
deriving DecidableEq

/-- Server→client tagged messages (`server.ts`: the payloads built for
`ws.send`): `output` carries process output, `session` carries the session
identity (`sessionId`, `shared`, `clients`, optional `isNew`, absent modelled
as `false`), `exit` carries the process exit code. -/
inductive ServerMsg where
  | output (data : String)
  | session (sessionId : Nat) (shared : Bool) (clientCount : Nat) (isNew : Bool)
  | exit (code : Int)
deriving DecidableEq

/-- Client→server messages as decoded by the `ws.on("message")` handler:
the four known tags, a parseable payload with any other tag
(`unknownTag`), and an unparseable payload (`malformed`, where `JSON.parse`
throws). -/
inductive ClientMsg where
  | start (cols rows : Nat)
  | new
  | input (data : String)
  | resize (cols rows : Nat)
  | unknownTag
  | malformed
deriving DecidableEq

/-- Observable effects of one handler run: a message sent to one client
(`ws.send` / `client.send`), writes, resizes and kills of a pty process
(identified by generation), and a server-side console log. -/
inductive Effect where
  | send (cid : Nat) (msg : ServerMsg)
  | ptyWrite (gen : Nat) (data : String)
  | ptyResize (gen : Nat) (cols rows : Nat)
  | ptyKill (gen : Nat)
  | log (text : String)
deriving DecidableEq

/-- The `SHARED_SESSION` record of `server.ts`: the live pty (by generation)
or `none`, the registered clients (`clients : Set<WebSocket>`, modelled as a
list in insertion order), the rolling output buffer, and the session
identifier, plus the two freshness counters of the model. -/
structure SessionState where
  pty : Option Nat
  clients : List Client
  outputBuffer : List String
  sessionId : Nat
  nextPtyGen : Nat
  nextSessionId : Nat
deriving DecidableEq

/-- `SHARED_SESSION.maxBufferLines`: keep the last 5000 chunks for replay. -/
def maxBufferLines : Nat := 5000

/-- `addToBuffer(data)`: push the chunk, then if the buffer holds more than
`maxBufferLines` chunks, keep only the last `maxBufferLines`
(`outputBuffer.slice(-maxBufferLines)`). -/
def addToBuffer (buf : List String) (data : String) : List String :=
  if (buf ++ [data]).length > maxBufferLines then
    (buf ++ [data]).drop ((buf ++ [data]).length - maxBufferLines)
  else
    buf ++ [data]

/-- The buffer produced by a whole sequence of `addToBuffer` calls starting
from the initial empty buffer. -/
def runBuffer (chunks : List String) : List String :=
  List.foldl addToBuffer [] chunks

/-- The buffer snapshot: the concatenation of all buffered chunks in order
(`outputBuffer.join("")`). -/
def snapshot (buf : List String) : String :=
  String.join buf

/-- The `forEach` + `readyState === OPEN` loop shared by the three broadcast
sites in the source: send `m` to every registered client whose transport is
open, skipping closed ones. -/
def sendToOpen (clients : List Client) (m : ServerMsg) : List Effect :=
  clients.filterMap fun c => if c.isOpen then some (.send c.cid m) else none

/-- `broadcastToClients(message)`: wrap the chunk as an `output` payload and
send it to every open registered client. -/
def broadcastToClients (clients : List Client) (message : String) : List Effect :=
  sendToOpen clients (.output message)

/-- `replayBufferToClient(ws)`: if the buffer is nonempty, send its joined
contents to this one client as a single `output` message; otherwise send
nothing. -/
def replayBufferToClient (buf : List String) (cid : Nat) : List Effect :=
  if buf.length > 0 then [.send cid (.output (snapshot buf))] else []

/-- The `ws.on("message")` switch of `server.ts` (lines 923–991).  `spawnOk`
tells whether a `pty.spawn` attempted inside this handler succeeds; when it
fails the exception skips the rest of the handler and reaches the `catch`,
which logs.  Mutations performed before the failing spawn persist, exactly as
in the source. -/
def handleClientMsg (st : SessionState) (cid : Nat) (spawnOk : Bool)
    (m : ClientMsg) : SessionState × List Effect :=
  match m with
  | .start _ _ =>
      match st.pty with
      | some _ =>
          -- join: replay the buffer to this client, then send the session msg
          (st, replayBufferToClient st.outputBuffer cid ++
            [.send cid (.session st.sessionId true st.clients.length false)])
      | none =>
          if spawnOk then
            -- create: spawn, regenerate the identifier, clear the buffer
            let st' := { st with
              pty := some st.nextPtyGen
              nextPtyGen := st.nextPtyGen + 1
              sessionId := st.nextSessionId
              nextSessionId := st.nextSessionId + 1
              outputBuffer := [] }
            (st', [.send cid (.session st'.sessionId true st'.clients.length false)])
          else
            -- pty.spawn threw before any mutation: only the catch's log runs
            (st, [.log "WebSocket message error"])
  | .new =>
      -- kill the existing pty if any, then clear buffer and regenerate the id
      let killEffs : List Effect :=
        match st.pty with
        | some g => [.ptyKill g]
        | none => []
      let st2 := { st with
        pty := none
        outputBuffer := []
        sessionId := st.nextSessionId
        nextSessionId := st.nextSessionId + 1 }
      if spawnOk then
        let st3 := { st2 with pty := some st2.nextPtyGen, nextPtyGen := st2.nextPtyGen + 1 }
        (st3, killEffs ++
          sendToOpen st3.clients (.session st3.sessionId true st3.clients.length true))
      else
        -- spawn threw after the kill/clear mutations: the catch logs
        (st2, killEffs ++ [.log "WebSocket message error"])
  | .input d =>
      match st.pty with
      | some g => (st, [.ptyWrite g d])
      | none => (st, [])
  | .resize c r =>
      match st.pty with
      | some g => (st, [.ptyResize g c r])
      | none => (st, [])
  | .unknownTag =>
      -- no matching case in the switch: nothing happens
      (st, [])
  | .malformed =>
      -- JSON.parse threw: the catch logs, nothing else happens
      (st, [.log "WebSocket message error"])

/-- One asynchronous event processed by the server's event loop. -/
inductive Event where
  | connect (cid : Nat)
  | close (cid : Nat)
  | msg (cid : Nat) (spawnOk : Bool) (m : ClientMsg)
  | ptyData (gen : Nat) (chunk : String)
  | ptyExit (gen : Nat) (code : Int)
deriving DecidableEq

/-- One step of the server: dispatch an event to the corresponding handler of
`server.ts`.  `connect` is the `wss.on("connection")` registration of an
authenticated client; `close` is `ws.on("close")`, which only removes the
client; `ptyData` is the `onData` handler (append to buffer, then broadcast);
`ptyExit` is the `onExit` handler (send the exit message to every open client,
then set `SHARED_SESSION.pty = null`) — note that, as in the source, the exit
handler does not check whether its pty is still the current one. -/
def step (st : SessionState) (e : Event) : SessionState × List Effect :=
  match e with
  | .connect cid =>
      ({ st with clients := st.clients ++ [⟨cid, true⟩] }, [])
  | .close cid =>
      ({ st with clients := st.clients.filter fun c => c.cid ≠ cid }, [])
  | .msg cid spawnOk m =>
      handleClientMsg st cid spawnOk m
  | .ptyData _ chunk =>
      ({ st with outputBuffer := addToBuffer st.outputBuffer chunk },
        broadcastToClients st.clients chunk)
  | .ptyExit _ code =>
      ({ st with pty := none }, sendToOpen st.clients (.exit code))

/-- Run a sequence of events, accumulating all effects in order. -/
def runEvents (st : SessionState) (es : List Event) : SessionState × List Effect :=
  match es with
  | [] => (st, [])
  | e :: rest =>
      let r := step st e
      let r' := runEvents r.1 rest
      (r'.1, r.2 ++ r'.2)

/-- All messages delivered to client `c` by an effect list, in order. -/
def msgsTo (effs : List Effect) (c : Nat) : List ServerMsg :=
  effs.filterMap fun e =>
    match e with
    | .send c' m => if c' = c then some m else none
    | _ => none

/-- The data of the `output`-tagged messages delivered to client `c`, in
order. -/
def outputMsgsTo (effs : List Effect) (c : Nat) : List String :=
  effs.filterMap fun e =>
    match e with
    | .send c' (.output d) => if c' = c then some d else none
    | _ => none

/-- A concrete ACTIVE session state (process generation 0, three clients of
which one has already closed its transport, one buffered chunk) used to
instantiate the theorems below. -/
def activeState : SessionState :=
  { pty := some 0, clients := [⟨1, true⟩, ⟨2, true⟩, ⟨3, false⟩],
    outputBuffer := ["hi"], sessionId := 5, nextPtyGen := 1, nextSessionId := 6 }

/-- A concrete ACTIVE session state whose output buffer is empty. -/
def activeStateNoBuffer : SessionState :=
  { pty := some 0, clients := [⟨1, true⟩], outputBuffer := [],
    sessionId := 5, nextPtyGen := 1, nextSessionId := 6 }

/-- A concrete EMPTY session state (no process) with one open client. -/
def emptyState : SessionState :=
  { pty := none, clients := [⟨1, true⟩], outputBuffer := [],
    sessionId := 0, nextPtyGen := 0, nextSessionId := 1 }

/-- A concrete ACTIVE session state (process generation 1, one open client,
one buffered chunk) about to be reset by a `new` message. -/
def resetState : SessionState :=
  { pty := some 1, clients := [⟨7, true⟩], outputBuffer := ["x"],
    sessionId := 0, nextPtyGen := 2, nextSessionId := 1 }

/-- A concrete ACTIVE session state (process generation 0, one open client)
holding one buffered chunk of prior output. -/
def bufferedState : SessionState :=
  { pty := some 0, clients := [⟨1, true⟩], outputBuffer := ["hi"],
    sessionId := 0, nextPtyGen := 1, nextSessionId := 1 }

/-! ### Ring-buffer lemmas -/

/-- `addToBuffer` always keeps exactly the last `maxBufferLines` chunks of the
extended buffer: both branches of the trim are a saturating suffix-drop. -/
lemma addToBuffer_eq_drop (buf : List String) (c : String) :
    addToBuffer buf c = (buf ++ [c]).drop (buf.length + 1 - maxBufferLines) := by
  unfold addToBuffer
  have hlen : (buf ++ [c]).length = buf.length + 1 := by simp
  by_cases h : (buf ++ [c]).length > maxBufferLines
  · rw [if_pos h, hlen]
  · rw [if_neg h]
    have h0 : buf.length + 1 - maxBufferLines = 0 := by omega
    rw [h0, List.drop_zero]

/-- The buffer never exceeds `maxBufferLines` chunks after an append. -/
lemma length_addToBuffer_le {buf : List String} (c : String)
    (h : buf.length ≤ maxBufferLines) :
    (addToBuffer buf c).length ≤ maxBufferLines := by
  rw [addToBuffer_eq_drop, List.length_drop, List.length_append]
  simp only [List.length_cons, List.length_nil]
  omega

/-- Folding `addToBuffer` over any chunk sequence from a within-cap buffer
yields exactly the suffix of the appended sequence that fits the cap. -/
lemma foldl_addToBuffer (cs : List String) :
    ∀ b : List String, b.length ≤ maxBufferLines →
      List.foldl addToBuffer b cs = (b ++ cs).drop ((b ++ cs).length - maxBufferLines) := by
  induction cs with
  | nil =>
      intro b hb
      simp only [List.foldl_nil, List.append_nil]
      rw [Nat.sub_eq_zero_of_le hb, List.drop_zero]
  | cons c cs ih =>
      intro b hb
      rw [List.foldl_cons, ih _ (length_addToBuffer_le c hb), addToBuffer_eq_drop]
      have hk : b.length + 1 - maxBufferLines ≤ (b ++ [c]).length := by
        simp only [List.length_append, List.length_cons, List.length_nil]
        omega
      rw [← List.drop_append_of_le_length hk, List.drop_drop]
      have hX : (b ++ [c]) ++ cs = b ++ c :: cs := by simp
      rw [hX, List.length_drop]
      have harith :
          b.length + 1 - maxBufferLines +
            ((b ++ c :: cs).length - (b.length + 1 - maxBufferLines) - maxBufferLines) =
          (b ++ c :: cs).length - maxBufferLines := by
        simp only [List.length_append, List.length_cons]
        omega
      rw [harith]

/-- The byte length of a joined chunk list is the sum of the chunk lengths. -/
lemma length_join (l : List String) :
    (String.join l).length = (l.map String.length).sum := by
  simp only [String.length, String.data_join, List.length_flatten, List.map_map]
  rfl

/-- Sum bound: if every chunk is at most `B` bytes, the total is at most
`length * B`. -/
lemma sum_map_length_le {l : List String} {B : Nat} (h : ∀ c ∈ l, c.length ≤ B) :
    (l.map String.length).sum ≤ l.length * B := by
  have hb : ∀ x ∈ l.map String.length, x ≤ B := by
    intro x hx
    obtain ⟨c, hc, rfl⟩ := List.mem_map.mp hx
    exact h c hc
  have := List.sum_le_card_nsmul (l.map String.length) B hb
  simpa [Nat.smul_one_eq_cast] using this

/-! ### Message-delivery lemmas -/

@[simp] lemma msgsTo_nil (c : Nat) : msgsTo [] c = [] := rfl

@[simp] lemma msgsTo_cons_send (c' : Nat) (m : ServerMsg) (rest : List Effect) (c : Nat) :
    msgsTo (Effect.send c' m :: rest) c = (if c' = c then [m] else []) ++ msgsTo rest c := by
  unfold msgsTo
  rw [List.filterMap_cons]
  by_cases h : c' = c <;> simp [h]

@[simp] lemma msgsTo_cons_ptyWrite (g : Nat) (d : String) (rest : List Effect) (c : Nat) :
    msgsTo (Effect.ptyWrite g d :: rest) c = msgsTo rest c := by
  unfold msgsTo
  rw [List.filterMap_cons]

@[simp] lemma msgsTo_cons_ptyResize (g co ro : Nat) (rest : List Effect) (c : Nat) :
    msgsTo (Effect.ptyResize g co ro :: rest) c = msgsTo rest c := by
  unfold msgsTo
  rw [List.filterMap_cons]

@[simp] lemma msgsTo_cons_ptyKill (g : Nat) (rest : List Effect) (c : Nat) :
    msgsTo (Effect.ptyKill g :: rest) c = msgsTo rest c := by
  unfold msgsTo
  rw [List.filterMap_cons]

@[simp] lemma msgsTo_cons_log (t : String) (rest : List Effect) (c : Nat) :
    msgsTo (Effect.log t :: rest) c = msgsTo rest c := by
  unfold msgsTo
  rw [List.filterMap_cons]

@[simp] lemma msgsTo_append (a b : List Effect) (c : Nat) :
    msgsTo (a ++ b) c = msgsTo a c ++ msgsTo b c := by
  unfold msgsTo
  rw [List.filterMap_append]

@[simp] lemma outputMsgsTo_nil (c : Nat) : outputMsgsTo [] c = [] := rfl

@[simp] lemma outputMsgsTo_cons_output (c' : Nat) (d : String) (rest : List Effect) (c : Nat) :
    outputMsgsTo (Effect.send c' (.output d) :: rest) c =
      (if c' = c then [d] else []) ++ outputMsgsTo rest c := by
  unfold outputMsgsTo
  rw [List.filterMap_cons]
  by_cases h : c' = c <;> simp [h]

@[simp] lemma outputMsgsTo_cons_session (c' sid : Nat) (sh : Bool) (n : Nat) (i : Bool)
    (rest : List Effect) (c : Nat) :
    outputMsgsTo (Effect.send c' (.session sid sh n i) :: rest) c = outputMsgsTo rest c := by
  unfold outputMsgsTo
  rw [List.filterMap_cons]

@[simp] lemma outputMsgsTo_cons_exit (c' : Nat) (code : Int) (rest : List Effect) (c : Nat) :
    outputMsgsTo (Effect.send c' (.exit code) :: rest) c = outputMsgsTo rest c := by
  unfold outputMsgsTo
  rw [List.filterMap_cons]

@[simp] lemma outputMsgsTo_cons_ptyWrite (g : Nat) (d : String) (rest : List Effect) (c : Nat) :
    outputMsgsTo (Effect.ptyWrite g d :: rest) c = outputMsgsTo rest c := by
  unfold outputMsgsTo
  rw [List.filterMap_cons]

@[simp] lemma outputMsgsTo_cons_ptyResize (g co ro : Nat) (rest : List Effect) (c : Nat) :
    outputMsgsTo (Effect.ptyResize g co ro :: rest) c = outputMsgsTo rest c := by
  unfold outputMsgsTo
  rw [List.filterMap_cons]

@[simp] lemma outputMsgsTo_cons_ptyKill (g : Nat) (rest : List Effect) (c : Nat) :
    outputMsgsTo (Effect.ptyKill g :: rest) c = outputMsgsTo rest c := by
  unfold outputMsgsTo
  rw [List.filterMap_cons]

@[simp] lemma outputMsgsTo_cons_log (t : String) (rest : List Effect) (c : Nat) :
    outputMsgsTo (Effect.log t :: rest) c = outputMsgsTo rest c := by
  unfold outputMsgsTo
  rw [List.filterMap_cons]

@[simp] lemma outputMsgsTo_append (a b : List Effect) (c : Nat) :
    outputMsgsTo (a ++ b) c = outputMsgsTo a c ++ outputMsgsTo b c := by
  unfold outputMsgsTo
  rw [List.filterMap_append]

@[simp] lemma sendToOpen_nil (m : ServerMsg) : sendToOpen [] m = [] := rfl

@[simp] lemma sendToOpen_cons (d : Client) (rest : List Client) (m : ServerMsg) :
    sendToOpen (d :: rest) m =
      (if d.isOpen then [Effect.send d.cid m] else []) ++ sendToOpen rest m := by
  unfold sendToOpen
  rw [List.filterMap_cons]
  by_cases h : d.isOpen <;> simp [h]

/-- A client identifier not present in the registry receives nothing from a
broadcast. -/
lemma msgsTo_sendToOpen_not_mem {clients : List Client} {cid : Nat} (m : ServerMsg)
    (h : cid ∉ clients.map Client.cid) :
    msgsTo (sendToOpen clients m) cid = [] := by
  induction clients with
  | nil => rfl
  | cons d rest ih =>
      simp only [List.map_cons, List.mem_cons, not_or] at h
      rw [sendToOpen_cons, msgsTo_append]
      rw [ih h.2]
      by_cases hd : d.isOpen
      · rw [if_pos hd, msgsTo_cons_send, if_neg (Ne.symm h.1)]
        rfl
      · rw [if_neg hd]
        rfl

/-- With distinct client identifiers, a broadcast delivers the message exactly
once to an open registered client and never to a closed one. -/
lemma msgsTo_sendToOpen_mem {clients : List Client} {cid : Nat} {b : Bool} (m : ServerMsg)
    (hdup : (clients.map Client.cid).Nodup)
    (hmem : Client.mk cid b ∈ clients) :
    msgsTo (sendToOpen clients m) cid = if b then [m] else [] := by
  induction clients with
  | nil => cases hmem
  | cons d rest ih =>
      simp only [List.map_cons, List.nodup_cons] at hdup
      rw [sendToOpen_cons, msgsTo_append]
      rcases List.mem_cons.mp hmem with heq | hrest
      · subst heq
        rw [msgsTo_sendToOpen_not_mem m (by simpa using hdup.1)]
        cases b <;> simp
      · have hne : d.cid ≠ cid := by
          intro hcontra
          exact hdup.1 (hcontra ▸ List.mem_map.mpr ⟨Client.mk cid b, hrest, rfl⟩)
        rw [ih hdup.2 hrest]
        by_cases hd : d.isOpen
        · rw [if_pos hd, msgsTo_cons_send, if_neg hne]
          rfl
        · rw [if_neg hd]
          rfl

/-- Output-data analogue of `msgsTo_sendToOpen_not_mem`. -/
lemma outputMsgsTo_sendToOpen_not_mem {clients : List Client} {cid : Nat} (d : String)
    (h : cid ∉ clients.map Client.cid) :
    outputMsgsTo (sendToOpen clients (.output d)) cid = [] := by
  induction clients with
  | nil => rfl
  | cons e rest ih =>
      simp only [List.map_cons, List.mem_cons, not_or] at h
      rw [sendToOpen_cons, outputMsgsTo_append]
      rw [ih h.2]
      by_cases he : e.isOpen
      · rw [if_pos he, outputMsgsTo_cons_output, if_neg (Ne.symm h.1)]
        rfl
      · rw [if_neg he]
        rfl

/-- Output-data analogue of `msgsTo_sendToOpen_mem`: broadcasting one chunk
delivers its data exactly once to each open registered client. -/
lemma outputMsgsTo_sendToOpen_mem {clients : List Client} {cid : Nat} {b : Bool} (d : String)
    (hdup : (clients.map Client.cid).Nodup)
    (hmem : Client.mk cid b ∈ clients) :
    outputMsgsTo (sendToOpen clients (.output d)) cid = if b then [d] else [] := by
  induction clients with
  | nil => cases hmem
  | cons e rest ih =>
      simp only [List.map_cons, List.nodup_cons] at hdup
      rw [sendToOpen_cons, outputMsgsTo_append]
      rcases List.mem_cons.mp hmem with heq | hrest
      · subst heq
        rw [outputMsgsTo_sendToOpen_not_mem d (by simpa using hdup.1)]
        cases b <;> simp
      · have hne : e.cid ≠ cid := by
          intro hcontra
          exact hdup.1 (hcontra ▸ List.mem_map.mpr ⟨Client.mk cid b, hrest, rfl⟩)
        rw [ih hdup.2 hrest]
        by_cases he : e.isOpen
        · rw [if_pos he, outputMsgsTo_cons_output, if_neg hne]
          rfl
        · rw [if_neg he]
          rfl

@[simp] lemma runEvents_nil (st : SessionState) : runEvents st [] = (st, []) := rfl

@[simp] lemma runEvents_cons (st : SessionState) (e : Event) (rest : List Event) :
    runEvents st (e :: rest) =
      ((runEvents (step st e).1 rest).1,
        (step st e).2 ++ (runEvents (step st e).1 rest).2) := rfl

/-- Running a sequence of pty output events delivers exactly the produced
chunks, in order, to each open registered client: nothing is duplicated,
nothing is missed. -/
lemma outputMsgsTo_runEvents_ptyData (chunks : List String) (st : SessionState)
    (g cid : Nat)
    (hdup : (st.clients.map Client.cid).Nodup)
    (hmem : Client.mk cid true ∈ st.clients) :
    outputMsgsTo (runEvents st (chunks.map (Event.ptyData g))).2 cid = chunks := by
  induction chunks generalizing st with
  | nil => rfl
  | cons ch rest ih =>
      simp only [List.map_cons, runEvents_cons, step]
      rw [outputMsgsTo_append]
      have h1 : outputMsgsTo (broadcastToClients st.clients ch) cid = [ch] := by
        unfold broadcastToClients
        rw [outputMsgsTo_sendToOpen_mem ch hdup hmem]
        rfl
      rw [h1, ih { st with outputBuffer := addToBuffer st.outputBuffer ch } hdup hmem]
      rfl

/-! ### The claims -/

/-- **C1**: for every sequence of `addToBuffer` calls starting from the empty
buffer, the retained chunks are exactly the most-recently-appended ones in
their original append order (the saturating suffix of the append sequence:
append only at the tail, evict only at the head, no reordering), the chunk
count never exceeds the configured cap `maxBufferLines`, and consequently the
`snapshot` byte length never exceeds the cap times any bound on the chunk
size (the byte-cap and chunk-count-cap policies agree when chunk size is
bounded). -/
theorem bufferBoundedFifo (chunks : List String) :
    (runBuffer chunks).length ≤ maxBufferLines ∧
    runBuffer chunks = chunks.drop (chunks.length - maxBufferLines) ∧
    ∀ B : Nat, (∀ c ∈ chunks, c.length ≤ B) →
      (snapshot (runBuffer chunks)).length ≤ maxBufferLines * B := by
  have hmain : runBuffer chunks = chunks.drop (chunks.length - maxBufferLines) := by
    unfold runBuffer
    rw [foldl_addToBuffer chunks [] (by simp)]
    simp
  have hlen : (runBuffer chunks).length ≤ maxBufferLines := by
    rw [hmain, List.length_drop]
    omega
  refine ⟨hlen, hmain, ?_⟩
  intro B hB
  have hsub : runBuffer chunks ⊆ chunks := by
    rw [hmain]
    exact List.drop_subset ..
  unfold snapshot
  rw [length_join]
  calc ((runBuffer chunks).map String.length).sum
      ≤ (runBuffer chunks).length * B :=
        sum_map_length_le (fun c hc => hB c (hsub hc))
    _ ≤ maxBufferLines * B := Nat.mul_le_mul_right B hlen

/-- Witness for **C1**: concrete chunk sequence, bound discharged by
evaluation. -/
theorem bufferBoundedFifo_witness :
    (∀ c ∈ ["ab", "cd"], String.length c ≤ 2) ∧
    (snapshot (runBuffer ["ab", "cd"])).length ≤ maxBufferLines * 2 :=
  ⟨by decide, (bufferBoundedFifo ["ab", "cd"]).2.2 2 (by decide)⟩

/-- **C2** (code bug, evaluated at the failing input): immediately after a
`new` message the session is ACTIVE with a fresh identifier, an empty buffer
and the predecessor killed — but when the killed predecessor's asynchronous
exit event is processed, its stale `onExit` handler unconditionally clears
`SHARED_SESSION.pty` (the session becomes EMPTY, orphaning the replacement
process) and sends a spurious exit message to the client, contradicting the
claim that the post-reset state survives the predecessor's exit event. -/
theorem staleExitClobbersNewSession :
    ((step resetState (.msg 7 true .new)).1.pty = some 2 ∧
      (step resetState (.msg 7 true .new)).1.sessionId = 1 ∧
      (step resetState (.msg 7 true .new)).1.sessionId ≠ resetState.sessionId ∧
      (step resetState (.msg 7 true .new)).1.outputBuffer = [] ∧
      Effect.ptyKill 1 ∈ (step resetState (.msg 7 true .new)).2) ∧
    (step (step resetState (.msg 7 true .new)).1 (.ptyExit 1 0)).1.pty = none ∧
    msgsTo (step (step resetState (.msg 7 true .new)).1 (.ptyExit 1 0)).2 7 =
      [.exit 0] := by
  decide

/-- **C3**: a `start` received while a process exists changes nothing (no new
process, no new identifier, no buffer change), sends the requesting client —
and it alone — the buffer snapshot (when nonempty) followed by the session
message, and from then on every open registered client, the joiner included,
receives each broadcast chunk exactly once, and a whole sequence of output
events is delivered to each open client exactly as produced, with no
duplication and no gap. -/
theorem startWhileActiveJoins (st : SessionState) (cid g cols rows : Nat) (ok : Bool)
    (hpty : st.pty = some g)
    (hdup : (st.clients.map Client.cid).Nodup) :
    (step st (.msg cid ok (.start cols rows))).1 = st ∧
    msgsTo (step st (.msg cid ok (.start cols rows))).2 cid =
      (if st.outputBuffer = [] then []
        else [.output (snapshot st.outputBuffer)]) ++
        [.session st.sessionId true st.clients.length false] ∧
    (∀ c : Nat, c ≠ cid → msgsTo (step st (.msg cid ok (.start cols rows))).2 c = []) ∧
    (∀ chunk : String, ∀ c : Client, c ∈ st.clients → c.isOpen = true →
      msgsTo (step st (.ptyData g chunk)).2 c.cid = [.output chunk]) ∧
    (∀ chunks : List String, ∀ c : Client, c ∈ st.clients → c.isOpen = true →
      outputMsgsTo (runEvents st (chunks.map (Event.ptyData g))).2 c.cid = chunks) := by
  have hstep : step st (.msg cid ok (.start cols rows)) =
      (st, replayBufferToClient st.outputBuffer cid ++
        [.send cid (.session st.sessionId true st.clients.length false)]) := by
    simp [step, handleClientMsg, hpty]
  refine ⟨by rw [hstep], ?_, ?_, ?_, ?_⟩
  · rw [hstep]
    by_cases hbuf : st.outputBuffer = []
    · simp [replayBufferToClient, hbuf]
    · have hlen : 0 < st.outputBuffer.length := List.length_pos.mpr hbuf
      simp [replayBufferToClient, hlen, hbuf]
  · intro c hc
    rw [hstep]
    by_cases hbuf : st.outputBuffer = []
    · simp [replayBufferToClient, hbuf, Ne.symm hc]
    · have hlen : 0 < st.outputBuffer.length := List.length_pos.mpr hbuf
      simp [replayBufferToClient, hlen, Ne.symm hc]
  · intro chunk c hcmem hcopen
    obtain ⟨cc, co⟩ := c
    obtain rfl : co = true := hcopen
    simp only [step]
    have h := msgsTo_sendToOpen_mem (b := true) (.output chunk) hdup hcmem
    simpa [broadcastToClients] using h
  · intro chunks c hcmem hcopen
    obtain ⟨cc, co⟩ := c
    obtain rfl : co = true := hcopen
    exact outputMsgsTo_runEvents_ptyData chunks st g cc hdup hcmem

/-- Witness for **C3**: instantiated at `activeState` with client 2
requesting the join. -/
theorem startWhileActiveJoins_witness :
    (activeState.pty = some 0 ∧ (activeState.clients.map Client.cid).Nodup) ∧
    msgsTo (step activeState (.msg 2 true (.start 80 24))).2 2 =
      [.output (snapshot ["hi"]), .session 5 true 3 false] :=
  ⟨⟨rfl, by decide⟩, by
    have h := (startWhileActiveJoins activeState 2 0 80 24 true rfl (by decide)).2.1
    simpa [activeState] using h⟩

/-- **C4**: `ws.on("close")` only deletes the client from the registry: the
process handle, the output buffer, the session identifier and the freshness
counters are untouched, no message is sent and no process is killed — with no
condition on how many clients remain, so this holds in particular when the
count drops to zero. -/
theorem clientCloseOnlyRemovesClient (st : SessionState) (cid : Nat) :
    (step st (.close cid)).1.pty = st.pty ∧
    (step st (.close cid)).1.outputBuffer = st.outputBuffer ∧
    (step st (.close cid)).1.sessionId = st.sessionId ∧
    (step st (.close cid)).1.nextPtyGen = st.nextPtyGen ∧
    (step st (.close cid)).1.nextSessionId = st.nextSessionId ∧
    (step st (.close cid)).1.clients = st.clients.filter (fun c => c.cid ≠ cid) ∧
    (step st (.close cid)).2 = [] :=
  ⟨rfl, rfl, rfl, rfl, rfl, rfl, rfl⟩

/-- **C5** (amended): when the current process exits, every open registered
client receives exactly one exit message carrying the code, closed clients
receive nothing, the session transitions to EMPTY, and the exit transition
itself leaves the output buffer, session identifier and registry unchanged.
(The buffer is, however, cleared by the next process creation — see the
counterexample `priorOutputNotReplayedAfterExit`.) -/
theorem processExitBroadcastsExactlyOnce (st : SessionState) (g : Nat) (code : Int)
    (_hpty : st.pty = some g)
    (hdup : (st.clients.map Client.cid).Nodup) :
    (step st (.ptyExit g code)).1.pty = none ∧
    (step st (.ptyExit g code)).1.outputBuffer = st.outputBuffer ∧
    (step st (.ptyExit g code)).1.sessionId = st.sessionId ∧
    (step st (.ptyExit g code)).1.clients = st.clients ∧
    ∀ c : Client, c ∈ st.clients →
      msgsTo (step st (.ptyExit g code)).2 c.cid =
        if c.isOpen then [.exit code] else [] := by
  refine ⟨rfl, rfl, rfl, rfl, ?_⟩
  intro c hc
  obtain ⟨cc, co⟩ := c
  exact msgsTo_sendToOpen_mem (.exit code) hdup hc

/-- Witness for **C5**: at `activeState`, the open client 1 receives exactly
one exit message and the closed client 3 receives nothing. -/
theorem processExitBroadcastsExactlyOnce_witness :
    (activeState.pty = some 0 ∧ (activeState.clients.map Client.cid).Nodup) ∧
    msgsTo (step activeState (.ptyExit 0 2)).2 1 = [.exit 2] ∧
    msgsTo (step activeState (.ptyExit 0 2)).2 3 = [] :=
  ⟨⟨rfl, by decide⟩, by
    have h1 := (processExitBroadcastsExactlyOnce activeState 0 2 rfl (by decide)).2.2.2.2
      ⟨1, true⟩ (by decide)
    have h3 := (processExitBroadcastsExactlyOnce activeState 0 2 rfl (by decide)).2.2.2.2
      ⟨3, false⟩ (by decide)
    exact ⟨by simpa using h1, by simpa using h3⟩⟩

/-- Counterexample to **C5** as stated: the prior output does not survive
"until the next explicit reset".  After the process exits with `"hi"`
buffered, the very next `start` (a create, not a reset — no `new` occurs in
this trace) clears the buffer, so a subsequent join replays none of the prior
output. -/
theorem priorOutputNotReplayedAfterExit :
    (step bufferedState (.ptyExit 0 0)).1.outputBuffer = ["hi"] ∧
    (step (step bufferedState (.ptyExit 0 0)).1
      (.msg 1 true (.start 80 24))).1.outputBuffer = [] ∧
    outputMsgsTo (step (step (step bufferedState (.ptyExit 0 0)).1
      (.msg 1 true (.start 80 24))).1 (.msg 1 true (.start 80 24))).2 1 = [] := by
  decide

/-- **C6** (amended): a spawn failure during a `start` on an EMPTY session
leaves the state exactly as it was — still EMPTY, no half-ACTIVE state — and
produces only a server-side log: no message of any kind is sent to the
requesting client, so the failure is not surfaced to it. -/
theorem spawnFailureLeavesEmpty (st : SessionState) (cid cols rows : Nat)
    (hpty : st.pty = none) :
    (step st (.msg cid false (.start cols rows))).1 = st ∧
    (step st (.msg cid false (.start cols rows))).1.pty = none ∧
    (∀ c : Nat, msgsTo (step st (.msg cid false (.start cols rows))).2 c = []) ∧
    (step st (.msg cid false (.start cols rows))).2 = [.log "WebSocket message error"] := by
  have hstep : step st (.msg cid false (.start cols rows)) =
      (st, [.log "WebSocket message error"]) := by
    simp [step, handleClientMsg, hpty]
  refine ⟨by rw [hstep], by rw [hstep]; exact hpty, ?_, by rw [hstep]⟩
  intro c
  rw [hstep]
  simp

/-- Witness for **C6**'s amended theorem, at `emptyState`. -/
theorem spawnFailureLeavesEmpty_witness :
    emptyState.pty = none ∧
    (step emptyState (.msg 1 false (.start 80 24))).2 = [.log "WebSocket message error"] :=
  ⟨rfl, (spawnFailureLeavesEmpty emptyState 1 80 24 rfl).2.2.2⟩

/-- Counterexample to **C6** as stated: at a concrete EMPTY state, a `start`
whose spawn fails sends nothing at all to the requesting client — the failure
is exactly "silently dropped" from the client's point of view; the only
observable effect is the server-side log. -/
theorem spawnFailureNotSurfaced :
    (step emptyState (.msg 1 false (.start 80 24))).1 = emptyState ∧
    msgsTo (step emptyState (.msg 1 false (.start 80 24))).2 1 = [] ∧
    (step emptyState (.msg 1 false (.start 80 24))).2 =
      [.log "WebSocket message error"] := by
  decide

/-- **C7**: an `input` message while no process exists is dropped with no
state change and no effect at all — in particular the dropped bytes are never
written to any process, and prefixing the dropped input to any later event
sequence leaves both the resulting state and every later effect unchanged (no
queued replay). -/
theorem inputWhileEmptyDropped (st : SessionState) (cid : Nat) (ok : Bool) (d : String)
    (hpty : st.pty = none) :
    step st (.msg cid ok (.input d)) = (st, []) ∧
    ∀ es : List Event, runEvents st (.msg cid ok (.input d) :: es) = runEvents st es := by
  have hstep : step st (.msg cid ok (.input d)) = (st, []) := by
    simp [step, handleClientMsg, hpty]
  refine ⟨hstep, ?_⟩
  intro es
  rw [runEvents_cons, hstep]
  simp

/-- Witness for **C7**, at `emptyState`. -/
theorem inputWhileEmptyDropped_witness :
    emptyState.pty = none ∧
    step emptyState (.msg 1 true (.input "ls")) = (emptyState, []) :=
  ⟨rfl, (inputWhileEmptyDropped emptyState 1 true "ls" rfl).1⟩

/-- **C8**: a broadcast delivers the message exactly once to every registered
client whose transport is open and never to a closed one, and every emitted
send targets some open registered client — a closed connection encountered
mid-list aborts nothing, since the per-client delivery equation holds for
every client independently of the others (and the function is total: no
failure case exists). -/
theorem broadcastDeliversExactlyOncePerOpenClient (clients : List Client) (message : String)
    (hdup : (clients.map Client.cid).Nodup) :
    (∀ c ∈ clients, msgsTo (broadcastToClients clients message) c.cid =
      if c.isOpen then [.output message] else []) ∧
    (∀ e ∈ broadcastToClients clients message,
      ∃ c ∈ clients, c.isOpen = true ∧ e = .send c.cid (.output message)) := by
  constructor
  · intro c hc
    obtain ⟨cc, co⟩ := c
    exact msgsTo_sendToOpen_mem (.output message) hdup hc
  · intro e he
    unfold broadcastToClients sendToOpen at he
    obtain ⟨c, hc, hfc⟩ := List.mem_filterMap.mp he
    by_cases hop : c.isOpen
    · rw [if_pos hop] at hfc
      exact ⟨c, hc, hop, (Option.some.inj hfc).symm⟩
    · rw [if_neg hop] at hfc
      cases hfc

/-- Witness for **C8**: with a closed client in the middle of the registry,
the open client after it still receives exactly one message and the closed
one receives none. -/
theorem broadcastDeliversExactlyOncePerOpenClient_witness :
    (([⟨1, true⟩, ⟨2, false⟩, ⟨3, true⟩] : List Client).map Client.cid).Nodup ∧
    msgsTo (broadcastToClients [⟨1, true⟩, ⟨2, false⟩, ⟨3, true⟩] "out") 3 =
      [.output "out"] ∧
    msgsTo (broadcastToClients [⟨1, true⟩, ⟨2, false⟩, ⟨3, true⟩] "out") 2 = [] :=
  ⟨by decide,
    by
      have h := (broadcastDeliversExactlyOncePerOpenClient
        [⟨1, true⟩, ⟨2, false⟩, ⟨3, true⟩] "out" (by decide)).1 ⟨3, true⟩ (by decide)
      simpa using h,
    by
      have h := (broadcastDeliversExactlyOncePerOpenClient
        [⟨1, true⟩, ⟨2, false⟩, ⟨3, true⟩] "out" (by decide)).1 ⟨2, false⟩ (by decide)
      simpa using h⟩

/-- **C9**: a malformed (unparseable) inbound message only produces a log, and
a parseable message with an unknown tag produces nothing at all; in both cases
the session state — the process, the buffer, the identifier and the whole
client registry, hence also the receiving client's registration — is exactly
unchanged and no client receives any message. -/
theorem malformedOrUnknownIgnored (st : SessionState) (cid : Nat) (ok : Bool) :
    step st (.msg cid ok .malformed) = (st, [.log "WebSocket message error"]) ∧
    step st (.msg cid ok .unknownTag) = (st, []) ∧
    (∀ c : Nat, msgsTo (step st (.msg cid ok .malformed)).2 c = []) ∧
    (∀ c : Nat, msgsTo (step st (.msg cid ok .unknownTag)).2 c = []) := by
  refine ⟨rfl, rfl, ?_, ?_⟩ <;> intro c <;> simp [step, handleClientMsg]

/-- **C10**: on a join (`start` while a process exists), the requesting client
receives an `output`-tagged replay message if and only if at least one chunk
is buffered; with an empty buffer no `output` message is sent at all (rather
than an empty-data one), and with a nonempty buffer the single replay message
carries exactly the snapshot. -/
theorem replayOutputIffBufferNonempty (st : SessionState) (cid g cols rows : Nat) (ok : Bool)
    (hpty : st.pty = some g) :
    outputMsgsTo (step st (.msg cid ok (.start cols rows))).2 cid =
      if st.outputBuffer = [] then [] else [snapshot st.outputBuffer] := by
  have hstep : step st (.msg cid ok (.start cols rows)) =
      (st, replayBufferToClient st.outputBuffer cid ++
        [.send cid (.session st.sessionId true st.clients.length false)]) := by
    simp [step, handleClientMsg, hpty]
  rw [hstep]
  by_cases hbuf : st.outputBuffer = []
  · simp [replayBufferToClient, hbuf]
  · have hlen : 0 < st.outputBuffer.length := List.length_pos.mpr hbuf
    simp [replayBufferToClient, hlen, hbuf]

/-- Witness for **C10**: at `activeStateNoBuffer` (ACTIVE, empty buffer), the
joining client receives no `output` message at all. -/
theorem replayOutputIffBufferNonempty_witness :
    activeStateNoBuffer.pty = some 0 ∧
    outputMsgsTo (step activeStateNoBuffer (.msg 1 true (.start 80 24))).2 1 = [] :=
  ⟨rfl, by
    have h := replayOutputIffBufferNonempty activeStateNoBuffer 1 0 80 24 true rfl
    simpa [activeStateNoBuffer] using h⟩

end EmergentTerminal
